import Mathlib

/-!
Verification of the orchestration core of the Windows imaging tool
(windows_image_prep_gui.py) against its natural-language specification.

The Python source is shallowly embedded: every external effect (a launched
subprocess, a database read, a GUI dialog) is represented by an explicit
oracle supplied as input, and each modelled function additionally returns the
chronological trace of the effects it performed, so that ordering claims
("cleanup is attempted even on failure", "removal happens before retry") can
be stated about the trace.
-/

/-! ## Python string primitives used by the parsing code -/

/-- Python list/str truthiness for an optional string: None and the empty
string are falsy, everything else is truthy. -/
def pyTruthy : Option String → Bool
  | none => false
  | some s => !(s.isEmpty)

/-- Does the first character list lead the second one?  (Helper for the
Python substring test.) -/
def charsLead : List Char → List Char → Bool
  | [], _ => true
  | _ :: _, [] => false
  | a :: as, b :: bs => (a == b) && charsLead as bs

/-- Does the needle occur contiguously inside the haystack? -/
def charsHave (needle : List Char) : List Char → Bool
  | [] => charsLead needle []
  | c :: rest => charsLead needle (c :: rest) || charsHave needle rest

/-- Python's infix test, the expression needle in hay on strings. -/
def pyIn (needle hay : String) : Bool :=
  charsHave needle.toList hay.toList

/-- Python str.strip: drop whitespace from both ends. -/
def pyStrip (s : List Char) : List Char :=
  ((s.dropWhile Char.isWhitespace).reverse.dropWhile Char.isWhitespace).reverse

/-- Split a character list at newline characters.  Models Python
str.splitlines for LF/CRLF input: a carriage return left at the end of a
line is removed later by pyStrip, and a trailing empty piece holds no
markers, so the difference to Python's exact behaviour is irrelevant to the
parsers below. -/
def splitOnNl : List Char → List (List Char)
  | [] => [[]]
  | c :: rest =>
    if c = '\n' then [] :: splitOnNl rest
    else
      match splitOnNl rest with
      | [] => [[c]]
      | l :: ls => (c :: l) :: ls

/-- Python line.split(sep, 1)[1] for a one-character separator: everything
after the first occurrence.  (Only used on lines known to hold the
separator.) -/
def pySplitOnceRest (sep : Char) (l : List Char) : List Char :=
  (l.dropWhile (· ≠ sep)).drop 1

/-! ## run_powershell (src lines 6895-6922)

The body launches a powershell process, streams its combined output to the
log, waits, and maps the exit code to a Bool; the surrounding
try/except turns any exception raised inside the body into the return
value False.  The launch oracle is None when any operation inside the
try block raises, and otherwise carries the streamed output lines and the
final exit code. -/

structure PsRunEnv where
  launch : Option (List String × Int)

/-- The try-block of run_powershell: an exception propagates as .error,
a completed process yields the comparison of its exit code with 0. -/
def run_powershell_body (env : PsRunEnv) : Except String Bool :=
  match env.launch with
  | none => Except.error "exception in try block"
  | some (_, code) => Except.ok (code == 0)

/-- run_powershell: the except-handler logs and returns False. -/
def run_powershell (env : PsRunEnv) : Bool :=
  match run_powershell_body env with
  | Except.ok b => b
  | Except.error _ => false

/-! ## generalize_worker sysprep loop (src lines 7113-7174)

for attempt in range(1, max_attempts + 1):
  clear Panther logs; run sysprep (control returning at all means failure);
  scan setuperr.log for AppX blockers;
  no blockers  -> surface raw sysprep output, break;
  blockers     -> one powershell invocation that, for each blocker, runs a
                  per-user removal (Remove-AppxPackage -AllUsers) and a
                  provisioned removal (Remove-AppxProvisionedPackage -Online);
  removal fail -> break;  attempt == max_attempts -> break;  else retry.

The environment oracle gives, for each attempt number, the deduplicated
blocker list parsed from the log and the success of the removal invocation. -/

inductive RemovalKind
  | perUser
  | provisioned
deriving DecidableEq, Repr

inductive GenEvent
  | clearLogs (attempt : Nat)
  | runSysprep (attempt : Nat)
  | surfaceRaw (attempt : Nat)
  | removalCall (attempt : Nat) (blocker : String) (kind : RemovalKind)
  | retryNotice (attempt : Nat)
deriving DecidableEq, Repr

/-- The attempt number an event belongs to, for ordering arguments. -/
def GenEvent.attemptOf : GenEvent → Nat
  | .clearLogs n => n
  | .runSysprep n => n
  | .surfaceRaw n => n
  | .removalCall n _ _ => n
  | .retryNotice n => n

inductive GenOutcome
  | noBlockersFound
  | removalFailed
  | maxAttemptsReached
deriving DecidableEq, Repr

structure SysprepEnv where
  blockersAt : Nat → List String
  removalOk : Nat → Bool

structure GenResult where
  outcome : GenOutcome
  runs : Nat
  trace : List GenEvent

/-- The removal powershell script: for each blocker, in order, one per-user
and one provisioned removal call, both by the blocker's name. -/
def removal_calls (attempt : Nat) : List String → List GenEvent
  | [] => []
  | b :: rest =>
    GenEvent.removalCall attempt b RemovalKind.perUser ::
      GenEvent.removalCall attempt b RemovalKind.provisioned ::
        removal_calls attempt rest

/-- One pass of the sysprep for-loop over the remaining attempt numbers. -/
def generalize_iter (env : SysprepEnv) (maxAttempts : Nat) :
    List Nat → GenResult
  | [] => ⟨GenOutcome.maxAttemptsReached, 0, []⟩
  | attempt :: rest =>
    let pre : List GenEvent :=
      [GenEvent.clearLogs attempt, GenEvent.runSysprep attempt]
    let blockers := env.blockersAt attempt
    if blockers.isEmpty then
      ⟨GenOutcome.noBlockersFound, 1, pre ++ [GenEvent.surfaceRaw attempt]⟩
    else
      let calls := removal_calls attempt blockers
      if !(env.removalOk attempt) then
        ⟨GenOutcome.removalFailed, 1, pre ++ calls⟩
      else if attempt == maxAttempts then
        ⟨GenOutcome.maxAttemptsReached, 1, pre ++ calls⟩
      else
        let r := generalize_iter env maxAttempts rest
        ⟨r.outcome, r.runs + 1,
          pre ++ calls ++ [GenEvent.retryNotice attempt] ++ r.trace⟩

/-- generalize_worker, step 7: the sysprep loop with max_attempts = 10. -/
def generalize_worker (env : SysprepEnv) : GenResult :=
  generalize_iter env 10 (List.range' 1 10)

/-! ## perform_vhdx_creation_workflow (src lines 9709-9760)

Five sequential steps inside one try/except: create the VHDX, attach and
partition it, restore the repository content, detach it, create the VM.
Steps 1, 2, 3 and 5 raise on failure; the except-handler only logs and
returns False.  Step 4 (unmount_vhdx, src lines 9947-9991) is reached only
when steps 1-3 succeeded; its failure is downgraded to a warning and the
workflow continues.  The attached flag tracks whether the virtual disk is
attached when the workflow ends: a successful attach-and-partition script
leaves the disk attached, a successful detach script releases it.  (A
partition script that fails may or may not have attached the disk first;
the model records the definite case only, attached after success.) -/

inductive WfEvent
  | createVhdx
  | mountPartition
  | restore
  | unmountAttempt
  | createVm
deriving DecidableEq, Repr

structure VhdxEnv where
  createOk : Bool
  mountResult : Option String
  restoreOk : Bool
  unmountOk : Bool
  createVmOk : Bool

structure WfResult where
  success : Bool
  trace : List WfEvent
  attached : Bool
deriving DecidableEq, Repr

def perform_vhdx_creation_workflow (env : VhdxEnv) : WfResult :=
  if !env.createOk then
    ⟨false, [WfEvent.createVhdx], false⟩
  else
    match env.mountResult with
    | none => ⟨false, [WfEvent.createVhdx, WfEvent.mountPartition], false⟩
    | some _ =>
      if !env.restoreOk then
        ⟨false, [WfEvent.createVhdx, WfEvent.mountPartition, WfEvent.restore],
          true⟩
      else
        if !env.createVmOk then
          ⟨false,
            [WfEvent.createVhdx, WfEvent.mountPartition, WfEvent.restore,
             WfEvent.unmountAttempt, WfEvent.createVm], !env.unmountOk⟩
        else
          ⟨true,
            [WfEvent.createVhdx, WfEvent.mountPartition, WfEvent.restore,
             WfEvent.unmountAttempt, WfEvent.createVm], !env.unmountOk⟩

/-! ## mount_and_partition_vhdx (src lines 9811-9870)

The function writes one fixed diskpart script (it depends only on the vhdx
path, never on the disk size) and runs it.  The script is transcribed
command by command, and a small interpreter applies it to a disk of a given
total size so size claims can be stated. -/

inductive DiskpartCmd
  | selectVdisk (file : String)
  | attachVdisk
  | createPartitionEfi (sizeMB : Nat)
  | activeCmd
  | createPartitionMsr (sizeMB : Nat)
  | createPartitionPrimary (sizeMB : Option Nat)
  | formatCmd (fs : String) (lbl : String)
  | assignLetter (letter : Char)
  | listPartition
  | exitCmd
deriving DecidableEq, Repr

/-- The exact command sequence of the partition_vhdx.txt script. -/
def partition_script (vhdxPath : String) : List DiskpartCmd :=
  [DiskpartCmd.selectVdisk vhdxPath,
   DiskpartCmd.attachVdisk,
   DiskpartCmd.createPartitionEfi 4096,
   DiskpartCmd.activeCmd,
   DiskpartCmd.formatCmd "fat32" "EFI",
   DiskpartCmd.assignLetter 'E',
   DiskpartCmd.createPartitionMsr 128,
   DiskpartCmd.createPartitionPrimary (some 4096),
   DiskpartCmd.formatCmd "ntfs" "Recovery",
   DiskpartCmd.assignLetter 'R',
   DiskpartCmd.createPartitionPrimary none,
   DiskpartCmd.formatCmd "ntfs" "OS",
   DiskpartCmd.assignLetter 'O',
   DiskpartCmd.listPartition,
   DiskpartCmd.exitCmd]

structure Partition where
  kind : String
  sizeMB : Nat
  fs : Option String
  lbl : Option String
  letter : Option Char
deriving DecidableEq, Repr

structure DiskState where
  totalMB : Nat
  usedMB : Nat
  parts : List Partition
  attachedDisk : Bool
deriving DecidableEq, Repr

/-- Append a newly created, not yet formatted partition; a missing size
means the remainder of the disk (diskpart semantics of create partition
without size=). -/
def DiskState.addPart (st : DiskState) (kind : String) (size : Option Nat) :
    DiskState :=
  let s := match size with
    | some v => v
    | none => st.totalMB - st.usedMB
  { st with usedMB := st.usedMB + s,
            parts := st.parts ++ [⟨kind, s, none, none, none⟩] }

/-- format and assign act on the most recently created partition. -/
def DiskState.updateLast (st : DiskState) (f : Partition → Partition) :
    DiskState :=
  match st.parts.reverse with
  | [] => st
  | p :: rest => { st with parts := (f p :: rest).reverse }

def applyDiskpartCmd (st : DiskState) : DiskpartCmd → DiskState
  | DiskpartCmd.selectVdisk _ => st
  | DiskpartCmd.attachVdisk => { st with attachedDisk := true }
  | DiskpartCmd.createPartitionEfi s => st.addPart "efi" (some s)
  | DiskpartCmd.activeCmd => st
  | DiskpartCmd.createPartitionMsr s => st.addPart "msr" (some s)
  | DiskpartCmd.createPartitionPrimary s => st.addPart "primary" s
  | DiskpartCmd.formatCmd fs lbl =>
    st.updateLast (fun p => { p with fs := some fs, lbl := some lbl })
  | DiskpartCmd.assignLetter c =>
    st.updateLast (fun p => { p with letter := some c })
  | DiskpartCmd.listPartition => st
  | DiskpartCmd.exitCmd => st

/-- The partitions that running the mount_and_partition_vhdx script creates
on a disk with totalMB megabytes. -/
def mount_and_partition_vhdx_parts (vhdxPath : String) (totalMB : Nat) :
    List Partition :=
  ((partition_script vhdxPath).foldl applyDiskpartCmd
    ⟨totalMB, 0, [], false⟩).parts

/-! ## get_or_generate_repository_password (src lines 8082-8165)

The database is modelled as an association list with the INSERT OR REPLACE
semantics of set_config (src lines 196-212).  The scope (client uuid, site
uuid) determines the config key; the secret generator is an oracle
argument.  The function returns the password, the updated database, the
effect trace, and whether the secret was freshly generated. -/

structure Db where
  config : List (String × String)
deriving DecidableEq, Repr

def Db.get_config (db : Db) (key : String) : Option String :=
  (db.config.find? (fun kv => kv.1 == key)).map (fun kv => kv.2)

def Db.set_config (db : Db) (key value : String) : Db :=
  ⟨(key, value) :: db.config.filter (fun kv => !(kv.1 == key))⟩

structure PwScope where
  clientUuid : Option String
  siteUuid : Option String
deriving DecidableEq, Repr

/-- repo_identifier, src line 8138. -/
def repo_identifier (s : PwScope) : String :=
  (s.clientUuid.getD "default-client") ++ "_" ++
    (s.siteUuid.getD "default-site") ++ "_backup"

def password_config_key (s : PwScope) : String :=
  "restic_password_" ++ repo_identifier s

inductive PwEvent
  | usedExisting (p : String)
  | generatedSecret (p : String)
  | storedConfig (key p : String)
  | showReminder (p : String)
deriving DecidableEq, Repr

structure PwResult where
  password : Option String
  db : Db
  trace : List PwEvent
  fresh : Bool

def get_or_generate_repository_password (db : Db) (scope : PwScope)
    (gen : String) : PwResult :=
  let key := password_config_key scope
  let existing := db.get_config key
  if pyTruthy existing then
    ⟨existing, db, [PwEvent.usedExisting (existing.getD "")], false⟩
  else
    let db2 := db.set_config key gen
    ⟨some gen, db2,
      [PwEvent.generatedSecret gen, PwEvent.storedConfig key gen,
       PwEvent.showReminder gen], true⟩

/-- The passwords returned by a sequence of calls on one scope, each call
fed the next output of the secret generator and the database state the
previous call left behind. -/
def password_call_sequence (db : Db) (scope : PwScope) :
    List String → List (Option String)
  | [] => []
  | g :: gs =>
    let r := get_or_generate_repository_password db scope g
    r.password :: password_call_sequence r.db scope gs

/-! ## init_restic_repository (src lines 7969-8063)

Obtains the scope password via get_or_generate_repository_password, runs
restic init, and on the failure message "already initialized" prompts the
operator to re-enter the repository password
(prompt_repository_password_confirmation, a modal dialog that blocks until
confirmed or cancelled) and verifies the entered password with a restic
snapshots probe; only a successful probe lets the function return True. -/

structure InitEnv where
  resticExeOk : Bool
  repoConfigOk : Bool
  initReturncode : Int
  initStderr : String
  promptResult : Option String
  verifyReturncode : Int

inductive InitEvent
  | gotPassword (p : String)
  | runInit
  | promptReentry
  | verifySecret (p : String)
deriving DecidableEq, Repr

def init_restic_repository (db : Db) (scope : PwScope) (gen : String)
    (env : InitEnv) : Bool × List InitEvent :=
  if !env.resticExeOk then (false, [])
  else
    let pw := get_or_generate_repository_password db scope gen
    match pw.password with
    | none => (false, [])
    | some p =>
      if !env.repoConfigOk then (false, [InitEvent.gotPassword p])
      else if env.initReturncode == 0 then
        (true, [InitEvent.gotPassword p, InitEvent.runInit])
      else if pyIn "already initialized" env.initStderr then
        match env.promptResult with
        | none =>
          (false,
           [InitEvent.gotPassword p, InitEvent.runInit,
            InitEvent.promptReentry])
        | some cp =>
          if env.verifyReturncode == 0 then
            (true,
             [InitEvent.gotPassword p, InitEvent.runInit,
              InitEvent.promptReentry, InitEvent.verifySecret cp])
          else
            (false,
             [InitEvent.gotPassword p, InitEvent.runInit,
              InitEvent.promptReentry, InitEvent.verifySecret cp])
      else (false, [InitEvent.gotPassword p, InitEvent.runInit])

/-! ## get_vss_shadow_path (src lines 7438-7495)

Method 1 queries WMI through powershell once (an exception or a non-zero
exit under check=True is the None case of the psOutput oracle) and accepts
a stripped, non-empty stdout holding the marker HarddiskVolumeShadowCopy.
Method 2 polls vssadmin up to 5 times; each attempt parses the output
line by line for a Shadow Copy Volume: line whose path after the first
colon, stripped, holds the marker, and sleeps 5 seconds after every
failed attempt. -/

def shadowMarker : List Char := "HarddiskVolumeShadowCopy".toList

/-- Line scan of one vssadmin output (the for line in output.splitlines()
loop body). -/
def findShadowLine : List (List Char) → Option (List Char)
  | [] => none
  | line :: rest =>
    if charsHave ("Shadow Copy Volume:".toList) line then
      let path := pyStrip (pySplitOnceRest ':' line)
      if charsHave shadowMarker path then some path
      else findShadowLine rest
    else findShadowLine rest

def parseVssOutput (out : String) : Option String :=
  (findShadowLine (splitOnNl out.toList)).map String.mk

/-- Outcome of the powershell WMI method on its oracle output. -/
def psMethodResult (o : Option String) : Option String :=
  match o with
  | none => none
  | some out =>
    let sp := pyStrip out.toList
    if !sp.isEmpty && charsHave shadowMarker sp then some (String.mk sp)
    else none

structure VssEnv where
  psOutput : Option String
  vssOutput : Nat → Option String

/-- What poll number n of the vssadmin loop yields: the run can raise
(oracle None) or return output that may or may not parse to a path. -/
def vssPollResult (env : VssEnv) (n : Nat) : Option String :=
  match env.vssOutput n with
  | none => none
  | some out => parseVssOutput out

structure VssResult where
  path : Option String
  polls : Nat
  backoffs : List Nat
deriving DecidableEq, Repr

def vss_poll_loop (env : VssEnv) : List Nat → VssResult
  | [] => ⟨none, 0, []⟩
  | attempt :: rest =>
    match vssPollResult env attempt with
    | some p => ⟨some p, 1, []⟩
    | none =>
      let r := vss_poll_loop env rest
      ⟨r.path, r.polls + 1, 5 :: r.backoffs⟩

def get_vss_shadow_path (env : VssEnv) : VssResult :=
  match psMethodResult env.psOutput with
  | some p => ⟨some p, 0, []⟩
  | none => vss_poll_loop env (List.range' 1 5)

/-! ## create_vss_drive_mapping (src lines 7531-7639)

Scans drive letters from Z backward to D for a free one; with none the
function returns None at once.  Otherwise it tries, in order: the subst
command, subst via powershell, and a directory junction via mklink, each
gated by an exit code and a post-hoc accessibility check, returning the
mapping of the first strategy that works and None when all three failed. -/

def vss_letter_order : List Char := "ZYXWVUTSRQPONMLKJIHGFED".toList

/-- Python shadow_path.rstrip of the backslash character. -/
def pyRstripBS (s : String) : String :=
  String.mk (s.toList.reverse.dropWhile (fun c => c == '\\')).reverse

structure MapEnv where
  driveExists : Char → Bool
  substExit : Int
  substVerify : Bool
  psSubstExit : Int
  psSubstVerify : Bool
  mklinkExit : Int
  junctionUsable : Bool

inductive MapEvent
  | trySubst (letter : Char) (target : String)
  | tryPsSubst (letter : Char) (target : String)
  | tryJunction (tempDir : String) (target : String)
deriving DecidableEq, Repr

structure MapResult where
  mapping : Option String
  trace : List MapEvent
deriving DecidableEq, Repr

def drive_string (c : Char) : String := String.mk [c, ':', '\\']

def create_vss_drive_mapping (env : MapEnv) (shadow_path : String) :
    MapResult :=
  match vss_letter_order.filter (fun c => !(env.driveExists c)) with
  | [] => ⟨none, []⟩
  | letter :: _ =>
    let clean := pyRstripBS shadow_path
    let tempDir := "C:\\temp_vss_mount_" ++ String.mk [letter]
    let tSub := MapEvent.trySubst letter clean
    let tPs := MapEvent.tryPsSubst letter clean
    let tJn := MapEvent.tryJunction tempDir clean
    if env.substExit == 0 && env.substVerify then
      ⟨some (drive_string letter), [tSub]⟩
    else if env.psSubstExit == 0 && env.psSubstVerify then
      ⟨some (drive_string letter), [tSub, tPs]⟩
    else if env.mklinkExit == 0 && env.junctionUsable then
      ⟨some (tempDir ++ "\\"), [tSub, tPs, tJn]⟩
    else
      ⟨none, [tSub, tPs, tJn]⟩

/-! Structural lemmas about the loop. -/

theorem generalize_iter_runs_le (env : SysprepEnv) (m : Nat) :
    ∀ l : List Nat, (generalize_iter env m l).runs ≤ l.length := by
  intro l
  induction l with
  | nil => simp [generalize_iter]
  | cons a rest ih =>
    simp only [generalize_iter, List.length_cons]
    split
    · simp
    · split
      · simp
      · split
        · simp
        · exact Nat.succ_le_succ ih

theorem removal_calls_tag (a : Nat) :
    ∀ (bl : List String), ∀ e ∈ removal_calls a bl, e.attemptOf = a := by
  intro bl
  induction bl with
  | nil => intro e he; simp [removal_calls] at he
  | cons b rest ih =>
    intro e he
    rcases List.mem_cons.mp he with h | h
    · subst h; rfl
    · rcases List.mem_cons.mp h with h2 | h2
      · subst h2; rfl
      · exact ih e h2

theorem removal_calls_mem (a : Nat) (bl : List String) (b : String)
    (hb : b ∈ bl) (kind : RemovalKind) :
    GenEvent.removalCall a b kind ∈ removal_calls a bl := by
  induction bl with
  | nil => simp at hb
  | cons c rest ih =>
    rcases List.mem_cons.mp hb with h | h
    · subst h
      cases kind
      · exact List.mem_cons_self _ _
      · exact List.mem_cons_of_mem _ (List.mem_cons_self _ _)
    · exact List.mem_cons_of_mem _ (List.mem_cons_of_mem _ (ih h))

theorem pairwise_of_const_tag (l : List GenEvent) (a : Nat)
    (h : ∀ e ∈ l, e.attemptOf = a) :
    l.Pairwise (fun x y => x.attemptOf ≤ y.attemptOf) := by
  induction l with
  | nil => exact List.Pairwise.nil
  | cons e rest ih =>
    refine List.Pairwise.cons ?_ (ih fun x hx => h x (List.mem_cons_of_mem _ hx))
    intro y hy
    rw [h e (List.mem_cons_self _ _), h y (List.mem_cons_of_mem _ hy)]

/-- The four possible shapes of one loop step, by case analysis on the
oracles of the first remaining attempt. -/
theorem generalize_iter_cons (env : SysprepEnv) (m a : Nat) (rest : List Nat) :
    generalize_iter env m (a :: rest) =
      if (env.blockersAt a).isEmpty then
        ⟨GenOutcome.noBlockersFound, 1,
          [GenEvent.clearLogs a, GenEvent.runSysprep a, GenEvent.surfaceRaw a]⟩
      else if !(env.removalOk a) then
        ⟨GenOutcome.removalFailed, 1,
          GenEvent.clearLogs a :: GenEvent.runSysprep a ::
            removal_calls a (env.blockersAt a)⟩
      else if a == m then
        ⟨GenOutcome.maxAttemptsReached, 1,
          GenEvent.clearLogs a :: GenEvent.runSysprep a ::
            removal_calls a (env.blockersAt a)⟩
      else
        ⟨(generalize_iter env m rest).outcome, (generalize_iter env m rest).runs + 1,
          GenEvent.clearLogs a :: GenEvent.runSysprep a ::
            (removal_calls a (env.blockersAt a) ++
              (GenEvent.retryNotice a :: (generalize_iter env m rest).trace))⟩ := by
  simp only [generalize_iter]
  split
  · rfl
  · split
    · rfl
    · split
      · rfl
      · simp

/-- Every event in the trace of the loop started at attempt a belongs to
attempt a or a later one. -/
theorem generalize_iter_tag_ge (env : SysprepEnv) (m : Nat) :
    ∀ (k a : Nat), ∀ e ∈ (generalize_iter env m (List.range' a k)).trace,
      a ≤ e.attemptOf := by
  intro k
  induction k with
  | zero => intro a e he; simp [List.range', generalize_iter] at he
  | succ k ih =>
    intro a e he
    have hr : List.range' a (k + 1) = a :: List.range' (a + 1) k := rfl
    rw [hr, generalize_iter_cons] at he
    have htag : ∀ x ∈ removal_calls a (env.blockersAt a), a ≤ x.attemptOf :=
      fun x hx => le_of_eq (removal_calls_tag a _ x hx).symm
    split at he
    · simp only [List.mem_cons, List.not_mem_nil, or_false] at he
      rcases he with h | h | h <;> subst h <;> exact Nat.le_refl a
    · split at he
      · simp only [List.mem_cons] at he
        rcases he with h | h | h
        · subst h; exact Nat.le_refl a
        · subst h; exact Nat.le_refl a
        · exact htag e h
      · split at he
        · simp only [List.mem_cons] at he
          rcases he with h | h | h
          · subst h; exact Nat.le_refl a
          · subst h; exact Nat.le_refl a
          · exact htag e h
        · simp only [List.mem_cons, List.mem_append] at he
          rcases he with h | h | h | h | h
          · subst h; exact Nat.le_refl a
          · subst h; exact Nat.le_refl a
          · exact htag e h
          · subst h; exact Nat.le_refl a
          · exact Nat.le_of_succ_le (ih (a + 1) e h)

/-- The trace is chronologically ordered by attempt number: an event of a
later attempt never precedes an event of an earlier one. -/
theorem generalize_iter_tag_pairwise (env : SysprepEnv) (m : Nat) :
    ∀ (k a : Nat), (generalize_iter env m (List.range' a k)).trace.Pairwise
      (fun x y => x.attemptOf ≤ y.attemptOf) := by
  intro k
  induction k with
  | zero => intro a; simp [List.range', generalize_iter]
  | succ k ih =>
    intro a
    have hr : List.range' a (k + 1) = a :: List.range' (a + 1) k := rfl
    rw [hr, generalize_iter_cons]
    have htag : ∀ x ∈ removal_calls a (env.blockersAt a), x.attemptOf = a :=
      removal_calls_tag a _
    split
    · refine pairwise_of_const_tag _ a ?_
      intro e he
      simp only [List.mem_cons, List.not_mem_nil, or_false] at he
      rcases he with h | h | h <;> subst h <;> rfl
    · split
      · refine pairwise_of_const_tag _ a ?_
        intro e he
        simp only [List.mem_cons] at he
        rcases he with h | h | h
        · subst h; rfl
        · subst h; rfl
        · exact htag e h
      · split
        · refine pairwise_of_const_tag _ a ?_
          intro e he
          simp only [List.mem_cons] at he
          rcases he with h | h | h
          · subst h; rfl
          · subst h; rfl
          · exact htag e h
        · have hsplit :
              GenEvent.clearLogs a :: GenEvent.runSysprep a ::
                (removal_calls a (env.blockersAt a) ++
                  (GenEvent.retryNotice a ::
                    (generalize_iter env m (List.range' (a + 1) k)).trace)) =
              (GenEvent.clearLogs a :: GenEvent.runSysprep a ::
                (removal_calls a (env.blockersAt a) ++
                  [GenEvent.retryNotice a])) ++
                (generalize_iter env m (List.range' (a + 1) k)).trace := by
            simp
          show List.Pairwise (fun x y => x.attemptOf ≤ y.attemptOf)
            (GenEvent.clearLogs a :: GenEvent.runSysprep a ::
              (removal_calls a (env.blockersAt a) ++
                (GenEvent.retryNotice a ::
                  (generalize_iter env m (List.range' (a + 1) k)).trace)))
          rw [hsplit, List.pairwise_append]
          refine ⟨?_, ih (a + 1), ?_⟩
          · refine pairwise_of_const_tag _ a ?_
            intro e he
            simp only [List.mem_cons, List.mem_append, List.not_mem_nil,
              or_false] at he
            rcases he with h | h | h | h
            · subst h; rfl
            · subst h; rfl
            · exact htag e h
            · subst h; rfl
          · intro x hx y hy
            have hxa : x.attemptOf = a := by
              simp only [List.mem_cons, List.mem_append, List.not_mem_nil,
                or_false] at hx
              rcases hx with h | h | h | h
              · subst h; rfl
              · subst h; rfl
              · exact htag x h
              · subst h; rfl
            have hya : a + 1 ≤ y.attemptOf :=
              generalize_iter_tag_ge env m k (a + 1) y hy
            omega

theorem run_not_mem_removal_calls (a s : Nat) :
    ∀ (bl : List String), GenEvent.runSysprep s ∉ removal_calls a bl := by
  intro bl
  induction bl with
  | nil => simp [removal_calls]
  | cons b rest ih =>
    intro h
    rcases List.mem_cons.mp h with h2 | h2
    · exact GenEvent.noConfusion h2
    · rcases List.mem_cons.mp h2 with h3 | h3
      · exact GenEvent.noConfusion h3
      · exact ih h3

/-- A sysprep run of attempt s in the trace means: s lies in the attempt
range, and when s is not the first attempt of the range, attempt s - 1
found blockers whose removal calls (both kinds, per blocker) are in the
trace and whose removal invocation succeeded. -/
theorem generalize_iter_run_protocol (env : SysprepEnv) (m : Nat) :
    ∀ (k a s : Nat),
      GenEvent.runSysprep s ∈ (generalize_iter env m (List.range' a k)).trace →
      a ≤ s ∧ (a < s →
        env.removalOk (s - 1) = true ∧
        ∀ b ∈ env.blockersAt (s - 1), ∀ kind : RemovalKind,
          GenEvent.removalCall (s - 1) b kind ∈
            (generalize_iter env m (List.range' a k)).trace) := by
  intro k
  induction k with
  | zero => intro a s hs; simp [List.range', generalize_iter] at hs
  | succ k ih =>
    intro a s hs
    have hr : List.range' a (k + 1) = a :: List.range' (a + 1) k := rfl
    rw [hr, generalize_iter_cons] at hs ⊢
    by_cases h1 : (env.blockersAt a).isEmpty = true
    · rw [if_pos h1] at hs ⊢
      simp only [List.mem_cons, List.not_mem_nil, or_false] at hs
      rcases hs with h | h | h
      · exact GenEvent.noConfusion h
      · have : s = a := by injection h
        subst this
        exact ⟨Nat.le_refl s, fun hlt => absurd hlt (Nat.lt_irrefl s)⟩
      · exact GenEvent.noConfusion h
    · rw [if_neg h1] at hs ⊢
      by_cases h2 : (!env.removalOk a) = true
      · rw [if_pos h2] at hs ⊢
        simp only [List.mem_cons] at hs
        rcases hs with h | h | h
        · exact GenEvent.noConfusion h
        · have : s = a := by injection h
          subst this
          exact ⟨Nat.le_refl s, fun hlt => absurd hlt (Nat.lt_irrefl s)⟩
        · exact absurd h (run_not_mem_removal_calls a s _)
      · rw [if_neg h2] at hs ⊢
        by_cases h3 : (a == m) = true
        · rw [if_pos h3] at hs ⊢
          simp only [List.mem_cons] at hs
          rcases hs with h | h | h
          · exact GenEvent.noConfusion h
          · have : s = a := by injection h
            subst this
            exact ⟨Nat.le_refl s, fun hlt => absurd hlt (Nat.lt_irrefl s)⟩
          · exact absurd h (run_not_mem_removal_calls a s _)
        · rw [if_neg h3] at hs ⊢
          simp only [List.mem_cons, List.mem_append] at hs ⊢
          have hok : env.removalOk a = true := by
            cases hb : env.removalOk a
            · exact absurd (by simp [hb]) h2
            · rfl
          rcases hs with h | h | h
          · exact GenEvent.noConfusion h
          · have : s = a := by injection h
            subst this
            exact ⟨Nat.le_refl s, fun hlt => absurd hlt (Nat.lt_irrefl s)⟩
          · rcases h with h | h | h
            · exact absurd h (run_not_mem_removal_calls a s _)
            · exact GenEvent.noConfusion h
            · have hrec := ih (a + 1) s h
              refine ⟨by omega, ?_⟩
              intro hlt
              by_cases hstep : a + 1 = s
              · have hs1 : s - 1 = a := by omega
                rw [hs1]
                refine ⟨hok, ?_⟩
                intro b hb kind
                right; right; left
                exact removal_calls_mem a _ b hb kind
              · have hlt2 : a + 1 < s := by omega
                obtain ⟨hok2, hmem⟩ := hrec.2 hlt2
                refine ⟨hok2, ?_⟩
                intro b hb kind
                right; right; right; right
                exact hmem b hb kind

/-- A failed blocker removal at a reached attempt ends the loop there:
the outcome is removal-failed and no later attempt runs sysprep. -/
theorem generalize_iter_removal_failed (env : SysprepEnv) (m : Nat) :
    ∀ (k a n : Nat),
      GenEvent.runSysprep n ∈ (generalize_iter env m (List.range' a k)).trace →
      (env.blockersAt n).isEmpty = false →
      env.removalOk n = false →
      (generalize_iter env m (List.range' a k)).outcome =
        GenOutcome.removalFailed ∧
      ∀ s, GenEvent.runSysprep s ∈
        (generalize_iter env m (List.range' a k)).trace → s ≤ n := by
  intro k
  induction k with
  | zero => intro a n hn _ _; simp [List.range', generalize_iter] at hn
  | succ k ih =>
    intro a n hn hbl hrm
    have hr : List.range' a (k + 1) = a :: List.range' (a + 1) k := rfl
    rw [hr, generalize_iter_cons] at hn ⊢
    by_cases h1 : (env.blockersAt a).isEmpty = true
    · rw [if_pos h1] at hn ⊢
      simp only [List.mem_cons, List.not_mem_nil, or_false] at hn
      rcases hn with h | h | h
      · exact GenEvent.noConfusion h
      · have : n = a := by injection h
        subst this
        rw [h1] at hbl
        exact absurd hbl (by simp)
      · exact GenEvent.noConfusion h
    · rw [if_neg h1] at hn ⊢
      by_cases h2 : (!env.removalOk a) = true
      · rw [if_pos h2] at hn ⊢
        refine ⟨rfl, ?_⟩
        intro s hsm
        simp only [List.mem_cons] at hn hsm
        have hna : n = a := by
          rcases hn with h | h | h
          · exact GenEvent.noConfusion h
          · injection h
          · exact absurd h (run_not_mem_removal_calls a n _)
        rcases hsm with h | h | h
        · exact GenEvent.noConfusion h
        · have : s = a := by injection h
          omega
        · exact absurd h (run_not_mem_removal_calls a s _)
      · rw [if_neg h2] at hn ⊢
        have hok : env.removalOk a = true := by
          cases hb : env.removalOk a
          · exact absurd (by simp [hb]) h2
          · rfl
        by_cases h3 : (a == m) = true
        · rw [if_pos h3] at hn ⊢
          simp only [List.mem_cons] at hn
          rcases hn with h | h | h
          · exact GenEvent.noConfusion h
          · have : n = a := by injection h
            subst this
            rw [hok] at hrm
            exact absurd hrm (by simp)
          · exact absurd h (run_not_mem_removal_calls a n _)
        · rw [if_neg h3] at hn ⊢
          simp only [List.mem_cons, List.mem_append] at hn ⊢
          have hnrec : GenEvent.runSysprep n ∈
              (generalize_iter env m (List.range' (a + 1) k)).trace := by
            rcases hn with h | h | h
            · exact GenEvent.noConfusion h
            · have : n = a := by injection h
              subst this
              rw [hok] at hrm
              exact absurd hrm (by simp)
            · rcases h with h | h | h
              · exact absurd h (run_not_mem_removal_calls a n _)
              · exact GenEvent.noConfusion h
              · exact h
          obtain ⟨hout, hbound⟩ := ih (a + 1) n hnrec hbl hrm
          refine ⟨hout, ?_⟩
          intro s hsm
          have han : a + 1 ≤ n :=
            generalize_iter_tag_ge env m k (a + 1) _ hnrec
          rcases hsm with h | h | h
          · exact GenEvent.noConfusion h
          · have : s = a := by injection h
            omega
          · rcases h with h | h | h
            · exact absurd h (run_not_mem_removal_calls a s _)
            · exact GenEvent.noConfusion h
            · exact hbound s h

/-- When every attempt in the range finds blockers and removes them
successfully, the loop uses the whole range and ends in the
max-attempts-reached outcome. -/
theorem generalize_iter_all_blocked (env : SysprepEnv) (m : Nat) :
    ∀ (k a : Nat), 1 ≤ k → a + k = m + 1 →
      (∀ n, a ≤ n → n < a + k →
        (env.blockersAt n).isEmpty = false ∧ env.removalOk n = true) →
      (generalize_iter env m (List.range' a k)).outcome =
        GenOutcome.maxAttemptsReached ∧
      (generalize_iter env m (List.range' a k)).runs = k := by
  intro k
  induction k with
  | zero => intro a h1 _ _; omega
  | succ k ih =>
    intro a _ hsum hall
    have hr : List.range' a (k + 1) = a :: List.range' (a + 1) k := rfl
    rw [hr, generalize_iter_cons]
    obtain ⟨hbl, hok⟩ := hall a (Nat.le_refl a) (by omega)
    rw [if_neg (by rw [hbl]; simp), if_neg (by rw [hok]; simp)]
    by_cases hk : k = 0
    · subst hk
      have ham : a = m := by omega
      rw [if_pos (by rw [ham]; exact beq_self_eq_true m)]
      exact ⟨rfl, rfl⟩
    · have hlt : a < m := by omega
      rw [if_neg (by simp; omega)]
      have hrec := ih (a + 1) (by omega) (by omega)
        (fun n hn1 hn2 => hall n (by omega) (by omega))
      exact ⟨hrec.1, by simp [hrec.2]⟩

/-- Claim C3: the generalize loop never runs the sysprep command more than
10 times, and when every attempt finds a non-empty blocker set and every
removal invocation succeeds, it terminates after exactly 10 iterations in
the max-attempts-reached outcome. -/
theorem generalize_worker_bounded_and_exact (env : SysprepEnv) :
    (generalize_worker env).runs ≤ 10 ∧
    ((∀ n, 1 ≤ n → n ≤ 10 →
        (env.blockersAt n).isEmpty = false ∧ env.removalOk n = true) →
      (generalize_worker env).outcome = GenOutcome.maxAttemptsReached ∧
      (generalize_worker env).runs = 10) := by
  constructor
  · have h := generalize_iter_runs_le env 10 (List.range' 1 10)
    simpa [generalize_worker] using h
  · intro hall
    have h := generalize_iter_all_blocked env 10 10 1 (by omega) (by omega)
      (fun n h1 h2 => hall n h1 (by omega))
    exact ⟨h.1, h.2⟩

/-- Witness for C3 at a concrete environment where every attempt finds the
blocker Candy and removal always succeeds. -/
theorem generalize_worker_bounded_and_exact_witness :
    (generalize_worker ⟨fun _ => ["Candy"], fun _ => true⟩).outcome =
      GenOutcome.maxAttemptsReached ∧
    (generalize_worker ⟨fun _ => ["Candy"], fun _ => true⟩).runs = 10 :=
  (generalize_worker_bounded_and_exact ⟨fun _ => ["Candy"], fun _ => true⟩).2
    (fun _ _ _ => ⟨rfl, rfl⟩)

/-- Claim C4: when the first attempt finds zero blockers, the loop ends at
once in the no-blockers-found outcome, surfaces the raw sysprep output,
and runs sysprep exactly once (no further attempt is consumed). -/
theorem generalize_worker_no_blockers_first (env : SysprepEnv)
    (h : (env.blockersAt 1).isEmpty = true) :
    (generalize_worker env).outcome = GenOutcome.noBlockersFound ∧
    (generalize_worker env).runs = 1 ∧
    GenEvent.surfaceRaw 1 ∈ (generalize_worker env).trace ∧
    ∀ s, GenEvent.runSysprep s ∈ (generalize_worker env).trace → s = 1 := by
  have hr : List.range' 1 10 = 1 :: List.range' 2 9 := rfl
  unfold generalize_worker
  rw [hr, generalize_iter_cons, if_pos h]
  refine ⟨rfl, rfl, by simp, ?_⟩
  intro s hs
  simp only [List.mem_cons, List.not_mem_nil, or_false] at hs
  rcases hs with h2 | h2 | h2
  · exact GenEvent.noConfusion h2
  · injection h2
  · exact GenEvent.noConfusion h2

/-- Witness for C4: an environment whose log scan always yields an empty
blocker list. -/
theorem generalize_worker_no_blockers_first_witness :
    (generalize_worker ⟨fun _ => [], fun _ => true⟩).outcome =
      GenOutcome.noBlockersFound ∧
    (generalize_worker ⟨fun _ => [], fun _ => true⟩).runs = 1 :=
  ⟨(generalize_worker_no_blockers_first ⟨fun _ => [], fun _ => true⟩ rfl).1,
   (generalize_worker_no_blockers_first ⟨fun _ => [], fun _ => true⟩ rfl).2.1⟩

/-- Claim C5: the trace is ordered by attempt number (so all removal calls
of attempt n precede the attempt n + 1 sysprep run); a retry at attempt
n + 1 implies attempt n's removal invocation succeeded and every blocker of
attempt n was submitted to the per-user and to the provisioned removal call
by name; and a failed removal at a reached attempt n ends the loop there,
in the removal-failed outcome, with no sysprep run after attempt n. -/
theorem generalize_worker_removal_protocol (env : SysprepEnv) :
    (generalize_worker env).trace.Pairwise
      (fun x y => x.attemptOf ≤ y.attemptOf) ∧
    (∀ n b (kind : RemovalKind), 1 ≤ n →
      GenEvent.runSysprep (n + 1) ∈ (generalize_worker env).trace →
      b ∈ env.blockersAt n →
      env.removalOk n = true ∧
      GenEvent.removalCall n b kind ∈ (generalize_worker env).trace) ∧
    (∀ n, GenEvent.runSysprep n ∈ (generalize_worker env).trace →
      (env.blockersAt n).isEmpty = false → env.removalOk n = false →
      (generalize_worker env).outcome = GenOutcome.removalFailed ∧
      ∀ s, GenEvent.runSysprep s ∈ (generalize_worker env).trace → s ≤ n) := by
  refine ⟨generalize_iter_tag_pairwise env 10 10 1, ?_, ?_⟩
  · intro n b kind h1 hrun hb
    have h := generalize_iter_run_protocol env 10 10 1 (n + 1) hrun
    have h2 := h.2 (by omega)
    simp only [Nat.add_sub_cancel] at h2
    exact ⟨h2.1, h2.2 b hb kind⟩
  · intro n hrun hbl hrm
    exact generalize_iter_removal_failed env 10 10 1 n hrun hbl hrm

/-- Witness for C5: blocker A is found every attempt, removal succeeds on
attempt 1 and fails on attempt 2, so the loop retried once (submitting A to
both removal mechanisms) and then stopped in removal-failed. -/
theorem generalize_worker_removal_protocol_witness :
    (generalize_worker ⟨fun _ => ["A"], fun n => n == 1⟩).outcome =
      GenOutcome.removalFailed ∧
    GenEvent.removalCall 1 "A" RemovalKind.perUser ∈
      (generalize_worker ⟨fun _ => ["A"], fun n => n == 1⟩).trace ∧
    GenEvent.removalCall 1 "A" RemovalKind.provisioned ∈
      (generalize_worker ⟨fun _ => ["A"], fun n => n == 1⟩).trace := by
  have h := generalize_worker_removal_protocol ⟨fun _ => ["A"], fun n => n == 1⟩
  refine ⟨(h.2.2 2 (by decide) rfl rfl).1,
    (h.2.1 1 "A" RemovalKind.perUser (by omega) (by decide) (by simp)).2,
    (h.2.1 1 "A" RemovalKind.provisioned (by omega) (by decide) (by simp)).2⟩

/-- Claim C10: run_powershell is total over its oracle and returns True
exactly when the launched process terminated with exit code 0; every
non-zero exit code and every exception inside the try block yield False. -/
theorem run_powershell_true_iff_exit_zero (env : PsRunEnv) :
    run_powershell env = true ↔ ∃ lines, env.launch = some (lines, 0) := by
  rcases h : env.launch with _ | ⟨lines, code⟩
  · simp [run_powershell, run_powershell_body, h]
  · simp [run_powershell, run_powershell_body, h]

/-- Claim C1, the failing input: creation and attach-and-partition succeed,
the repository restore fails.  The workflow then returns failure without
ever attempting the detach step, and the virtual disk stays attached when
the workflow ends — the except-handler path has no unmount call. -/
theorem perform_vhdx_workflow_leaves_disk_attached :
    (perform_vhdx_creation_workflow ⟨true, some "O", false, true, true⟩).success
      = false ∧
    WfEvent.unmountAttempt ∉
      (perform_vhdx_creation_workflow
        ⟨true, some "O", false, true, true⟩).trace ∧
    (perform_vhdx_creation_workflow ⟨true, some "O", false, true, true⟩).attached
      = true := by
  refine ⟨rfl, ?_, rfl⟩
  decide

/-- Claim C2, counterexample: on a 256 GB (262144 MB) disk the partition
script creates four partitions, not three — a 128 MB MSR partition sits
between EFI and Recovery. -/
theorem mount_and_partition_not_three_partitions :
    (mount_and_partition_vhdx_parts "C:\\disk.vhdx" 262144).length = 4 ∧
    ¬((mount_and_partition_vhdx_parts "C:\\disk.vhdx" 262144).length = 3) := by
  refine ⟨rfl, ?_⟩
  decide

/-- Claim C2 as amended: for every disk size the script creates exactly
four partitions in the fixed order EFI (4096 MB, fat32, letter E), MSR
(128 MB, unformatted), Recovery (4096 MB, ntfs, letter R), OS (all
remaining space, ntfs, letter O); EFI, MSR and Recovery sizes are constants
independent of the total size, and on a disk of at least the 8320 MB of
fixed partitions the OS partition is exactly the remainder. -/
theorem mount_and_partition_four_partitions (vhdxPath : String)
    (totalMB : Nat) (h : 8320 ≤ totalMB) :
    mount_and_partition_vhdx_parts vhdxPath totalMB =
      [⟨"efi", 4096, some "fat32", some "EFI", some 'E'⟩,
       ⟨"msr", 128, none, none, none⟩,
       ⟨"primary", 4096, some "ntfs", some "Recovery", some 'R'⟩,
       ⟨"primary", totalMB - 8320, some "ntfs", some "OS", some 'O'⟩] ∧
    4096 + 128 + 4096 + (totalMB - 8320) = totalMB := by
  exact ⟨rfl, by omega⟩

/-- Witness for the amended C2 at the spec's 256-unit scenario size. -/
theorem mount_and_partition_four_partitions_witness :
    8320 ≤ 262144 ∧
    mount_and_partition_vhdx_parts "C:\\img.vhdx" 262144 =
      [⟨"efi", 4096, some "fat32", some "EFI", some 'E'⟩,
       ⟨"msr", 128, none, none, none⟩,
       ⟨"primary", 4096, some "ntfs", some "Recovery", some 'R'⟩,
       ⟨"primary", 253824, some "ntfs", some "OS", some 'O'⟩] := by
  refine ⟨by omega, ?_⟩
  have h := (mount_and_partition_four_partitions "C:\\img.vhdx" 262144
    (by omega)).1
  simpa using h

theorem Db.get_set_config (db : Db) (key v : String) :
    (db.set_config key v).get_config key = some v := by
  simp [Db.set_config, Db.get_config, List.find?]

/-- A truthy cached secret short-circuits the function: it is returned
unchanged and the database is untouched. -/
theorem get_or_generate_password_stable (db : Db) (scope : PwScope)
    (g p : String)
    (h : db.get_config (password_config_key scope) = some p)
    (hp : p.isEmpty = false) :
    get_or_generate_repository_password db scope g =
      ⟨some p, db, [PwEvent.usedExisting p], false⟩ := by
  simp only [get_or_generate_repository_password, h]
  simp [pyTruthy, hp]

theorem password_call_sequence_stable (scope : PwScope) (p : String)
    (hp : p.isEmpty = false) :
    ∀ (gs : List String) (db : Db),
      db.get_config (password_config_key scope) = some p →
      password_call_sequence db scope gs = gs.map (fun _ => some p) := by
  intro gs
  induction gs with
  | nil => intro db _; rfl
  | cons g rest ih =>
    intro db h
    simp only [password_call_sequence,
      get_or_generate_password_stable db scope g p h hp, List.map_cons]
    exact congrArg _ (ih db h)

/-- Claim C7: the repository secret is generated at most once per scope.
A first call on a scope with no truthy cached secret persists the freshly
generated secret, and every later call on that scope returns that persisted
secret unchanged, whatever the generator would have produced next. -/
theorem get_or_generate_password_once_per_scope (db : Db) (scope : PwScope)
    (g0 : String) (gs : List String)
    (hcache : pyTruthy (db.get_config (password_config_key scope)) = false)
    (hg : g0.isEmpty = false) :
    (get_or_generate_repository_password db scope g0).fresh = true ∧
    ((get_or_generate_repository_password db scope g0).db).get_config
      (password_config_key scope) = some g0 ∧
    password_call_sequence db scope (g0 :: gs) =
      some g0 :: gs.map (fun _ => some g0) := by
  have hfirst : get_or_generate_repository_password db scope g0 =
      ⟨some g0, db.set_config (password_config_key scope) g0,
       [PwEvent.generatedSecret g0,
        PwEvent.storedConfig (password_config_key scope) g0,
        PwEvent.showReminder g0], true⟩ := by
    simp only [get_or_generate_repository_password, hcache]
    simp
  refine ⟨by rw [hfirst], by rw [hfirst]; exact Db.get_set_config db _ g0, ?_⟩
  simp only [password_call_sequence, hfirst, List.map_cons]
  refine congrArg _ (password_call_sequence_stable scope g0 hg gs _ ?_)
  exact Db.get_set_config db _ g0

/-- Witness for C7: a fresh database and three calls on the default scope;
the later generator outputs pw2, pw3 are ignored. -/
theorem get_or_generate_password_once_per_scope_witness :
    pyTruthy ((Db.mk []).get_config (password_config_key ⟨none, none⟩))
      = false ∧
    password_call_sequence ⟨[]⟩ ⟨none, none⟩ ["pw1", "pw2", "pw3"] =
      [some "pw1", some "pw1", some "pw1"] := by
  refine ⟨rfl, ?_⟩
  have h := (get_or_generate_password_once_per_scope ⟨[]⟩ ⟨none, none⟩
    "pw1" ["pw2", "pw3"] rfl rfl).2.2
  simpa using h

/-- Claim C6: a freshly generated secret is surfaced to the operator (the
password reminder acknowledgment dialog is invoked on it) before the
function returns it; and when restic init fails with already initialized
for a scope with no cached secret, the operation proceeds (returns True)
only after the operator re-entered a secret and that secret was verified
against the repository by a successful snapshots probe. -/
theorem secret_surface_and_reentry (db : Db) (scope : PwScope) (gen : String)
    (env : InitEnv) :
    ((get_or_generate_repository_password db scope gen).fresh = true →
      (get_or_generate_repository_password db scope gen).password = some gen ∧
      PwEvent.showReminder gen ∈
        (get_or_generate_repository_password db scope gen).trace) ∧
    (pyTruthy (db.get_config (password_config_key scope)) = false →
      env.initReturncode ≠ 0 →
      pyIn "already initialized" env.initStderr = true →
      (init_restic_repository db scope gen env).1 = true →
      InitEvent.promptReentry ∈ (init_restic_repository db scope gen env).2 ∧
      ∃ cp, env.promptResult = some cp ∧
        InitEvent.verifySecret cp ∈
          (init_restic_repository db scope gen env).2 ∧
        env.verifyReturncode = 0) := by
  constructor
  · intro hfresh
    cases hc : pyTruthy (db.get_config (password_config_key scope)) with
    | true =>
      exfalso
      simp [get_or_generate_repository_password, hc] at hfresh
    | false =>
      simp [get_or_generate_repository_password, hc]
  · intro hcache hinit hstderr hres
    have hpw : get_or_generate_repository_password db scope gen =
        ⟨some gen, db.set_config (password_config_key scope) gen,
         [PwEvent.generatedSecret gen,
          PwEvent.storedConfig (password_config_key scope) gen,
          PwEvent.showReminder gen], true⟩ := by
      simp only [get_or_generate_repository_password, hcache]
      simp
    have h0 : (env.initReturncode == 0) = false := by
      simp only [beq_eq_false_iff_ne, ne_eq]
      exact hinit
    cases hexe : env.resticExeOk with
    | false => simp [init_restic_repository, hexe] at hres
    | true =>
      cases hcfg : env.repoConfigOk with
      | false => simp [init_restic_repository, hexe, hpw, hcfg] at hres
      | true =>
        cases hp : env.promptResult with
        | none =>
          simp [init_restic_repository, hexe, hpw, hcfg, h0, hstderr,
            hp] at hres
        | some cp =>
          cases hv : env.verifyReturncode == 0 with
          | false =>
            simp [init_restic_repository, hexe, hpw, hcfg, h0, hstderr,
              hp, hv] at hres
          | true =>
            refine ⟨?_, cp, rfl, ?_, eq_of_beq hv⟩
            · simp [init_restic_repository, hexe, hpw, hcfg, h0, hstderr,
                hp, hv]
            · simp [init_restic_repository, hexe, hpw, hcfg, h0, hstderr,
                hp, hv]

/-- Witness for C6: a fresh database, so the secret is freshly generated
and surfaced; init reports already initialized, the operator re-enters a
secret, and the verification probe succeeds. -/
theorem secret_surface_and_reentry_witness :
    PwEvent.showReminder "secret1" ∈
      (get_or_generate_repository_password ⟨[]⟩ ⟨none, none⟩
        "secret1").trace ∧
    InitEvent.promptReentry ∈
      (init_restic_repository ⟨[]⟩ ⟨none, none⟩ "secret1"
        ⟨true, true, 1, "already initialized", some "operator-pass", 0⟩).2 ∧
    InitEvent.verifySecret "operator-pass" ∈
      (init_restic_repository ⟨[]⟩ ⟨none, none⟩ "secret1"
        ⟨true, true, 1, "already initialized", some "operator-pass", 0⟩).2 := by
  have h := secret_surface_and_reentry ⟨[]⟩ ⟨none, none⟩ "secret1"
    ⟨true, true, 1, "already initialized", some "operator-pass", 0⟩
  have h2 := h.2 rfl (by decide) (by decide) rfl
  refine ⟨(h.1 rfl).2, h2.1, ?_⟩
  obtain ⟨cp, hcp, hmem, _⟩ := h2.2
  have : cp = "operator-pass" := by
    have := hcp.symm.trans rfl
    injection this
  rwa [this] at hmem

theorem vss_poll_loop_polls_le (env : VssEnv) :
    ∀ l : List Nat, (vss_poll_loop env l).polls ≤ l.length := by
  intro l
  induction l with
  | nil => simp [vss_poll_loop]
  | cons a rest ih =>
    cases h : vssPollResult env a with
    | none =>
      simp only [vss_poll_loop, h, List.length_cons]
      exact Nat.succ_le_succ ih
    | some p => simp [vss_poll_loop, h]

theorem vss_poll_loop_backoff_fixed (env : VssEnv) :
    ∀ l : List Nat, ∀ d ∈ (vss_poll_loop env l).backoffs, d = 5 := by
  intro l
  induction l with
  | nil => simp [vss_poll_loop]
  | cons a rest ih =>
    intro d hd
    cases h : vssPollResult env a with
    | none =>
      simp only [vss_poll_loop, h] at hd
      rcases List.mem_cons.mp hd with h2 | h2
      · exact h2
      · exact ih d h2
    | some p => simp [vss_poll_loop, h] at hd

/-- Claim C8: the vssadmin polling loop of get_vss_shadow_path makes at
most 5 polls with a fixed 5 second backoff after each failed poll, and
against a backend whose first two polls fail to yield a path while the
third yields one, the function returns that path using exactly 3 polls. -/
theorem get_vss_shadow_path_bounded_polls (env : VssEnv) :
    (get_vss_shadow_path env).polls ≤ 5 ∧
    (∀ d ∈ (get_vss_shadow_path env).backoffs, d = 5) ∧
    (∀ p : String,
      psMethodResult env.psOutput = none →
      vssPollResult env 1 = none →
      vssPollResult env 2 = none →
      vssPollResult env 3 = some p →
      (get_vss_shadow_path env).path = some p ∧
      (get_vss_shadow_path env).polls = 3) := by
  cases hps : psMethodResult env.psOutput with
  | some q =>
    refine ⟨?_, ?_, ?_⟩
    · simp [get_vss_shadow_path, hps]
    · simp [get_vss_shadow_path, hps]
    · intro p hnone _ _ _
      exact Option.noConfusion hnone
  | none =>
    have hrange : List.range' 1 5 = [1, 2, 3, 4, 5] := rfl
    refine ⟨?_, ?_, ?_⟩
    · have h := vss_poll_loop_polls_le env (List.range' 1 5)
      simpa [get_vss_shadow_path, hps] using h
    · intro d hd
      have h := vss_poll_loop_backoff_fixed env (List.range' 1 5) d
      apply h
      simpa [get_vss_shadow_path, hps] using hd
    · intro p _ h1 h2 h3
      simp [get_vss_shadow_path, hps, hrange, vss_poll_loop, h1, h2, h3]

/-- Witness for C8: the powershell method raises, the first two vssadmin
outputs hold no shadow path, the third parses to one. -/
theorem get_vss_shadow_path_bounded_polls_witness :
    (get_vss_shadow_path
      ⟨none, fun n => if n == 3
        then some "  Shadow Copy Volume: HarddiskVolumeShadowCopy1"
        else some "Waiting for responses."⟩).path =
      some "HarddiskVolumeShadowCopy1" ∧
    (get_vss_shadow_path
      ⟨none, fun n => if n == 3
        then some "  Shadow Copy Volume: HarddiskVolumeShadowCopy1"
        else some "Waiting for responses."⟩).polls = 3 := by
  have h := (get_vss_shadow_path_bounded_polls
    ⟨none, fun n => if n == 3
      then some "  Shadow Copy Volume: HarddiskVolumeShadowCopy1"
      else some "Waiting for responses."⟩).2.2
  exact h "HarddiskVolumeShadowCopy1" rfl (by decide) (by decide) (by decide)

/-- Claim C9 counterexample: when every drive letter is taken the function
returns None without attempting the substitution strategy or the junction
strategy (its trace is empty), so failure is not only returned after both
strategies failed. -/
theorem create_vss_drive_mapping_no_letter_counterexample :
    (create_vss_drive_mapping ⟨fun _ => true, 0, true, 0, true, 0, true⟩
      "Device\\Shadow").mapping = none ∧
    (create_vss_drive_mapping ⟨fun _ => true, 0, true, 0, true, 0, true⟩
      "Device\\Shadow").trace = [] :=
  ⟨rfl, rfl⟩

/-- Claim C9 as amended: when a free drive letter exists, drive-letter
substitution is tried first for every device path; the junction fallback is
attempted only after both substitution variants failed; None is returned
only with all three attempts failed (and all attempted); and the first
successful strategy determines the returned mapping.  When no drive letter
is free the function fails without attempting either strategy (see the
counterexample theorem). -/
theorem create_vss_drive_mapping_strategy_order (env : MapEnv)
    (path : String) (letter : Char) (restAvail : List Char)
    (hav : vss_letter_order.filter (fun c => !(env.driveExists c)) =
      letter :: restAvail) :
    ((create_vss_drive_mapping env path).trace.head? =
      some (MapEvent.trySubst letter (pyRstripBS path))) ∧
    (MapEvent.tryJunction ("C:\\temp_vss_mount_" ++ String.mk [letter])
        (pyRstripBS path) ∈ (create_vss_drive_mapping env path).trace →
      (env.substExit == 0 && env.substVerify) = false ∧
      (env.psSubstExit == 0 && env.psSubstVerify) = false) ∧
    ((create_vss_drive_mapping env path).mapping = none →
      (create_vss_drive_mapping env path).trace =
        [MapEvent.trySubst letter (pyRstripBS path),
         MapEvent.tryPsSubst letter (pyRstripBS path),
         MapEvent.tryJunction ("C:\\temp_vss_mount_" ++ String.mk [letter])
           (pyRstripBS path)] ∧
      (env.substExit == 0 && env.substVerify) = false ∧
      (env.psSubstExit == 0 && env.psSubstVerify) = false ∧
      (env.mklinkExit == 0 && env.junctionUsable) = false) ∧
    ((env.substExit == 0 && env.substVerify) = true →
      (create_vss_drive_mapping env path).mapping =
        some (drive_string letter)) ∧
    ((env.substExit == 0 && env.substVerify) = false →
      (env.psSubstExit == 0 && env.psSubstVerify) = true →
      (create_vss_drive_mapping env path).mapping =
        some (drive_string letter)) ∧
    ((env.substExit == 0 && env.substVerify) = false →
      (env.psSubstExit == 0 && env.psSubstVerify) = false →
      (env.mklinkExit == 0 && env.junctionUsable) = true →
      (create_vss_drive_mapping env path).mapping =
        some ("C:\\temp_vss_mount_" ++ String.mk [letter] ++ "\\")) := by
  cases hc1 : env.substExit == 0 && env.substVerify <;>
    cases hc2 : env.psSubstExit == 0 && env.psSubstVerify <;>
      cases hc3 : env.mklinkExit == 0 && env.junctionUsable <;>
        simp [create_vss_drive_mapping, hav, hc1, hc2, hc3]

/-- Witness for the amended C9: only Z is free, both substitution variants
fail, the junction works, and the junction path is returned. -/
theorem create_vss_drive_mapping_strategy_order_witness :
    (create_vss_drive_mapping
      ⟨fun c => !(c == 'Z'), 1, false, 1, false, 0, true⟩
      "Device\\Shadow\\").mapping =
      some ("C:\\temp_vss_mount_" ++ String.mk ['Z'] ++ "\\") := by
  have h := create_vss_drive_mapping_strategy_order
    ⟨fun c => !(c == 'Z'), 1, false, 1, false, 0, true⟩
    "Device\\Shadow\\" 'Z' [] (by decide)
  exact h.2.2.2.2.2 rfl rfl rfl

/-- Witness for C10: a clean run with exit code 0 returns True. -/
theorem run_powershell_true_iff_exit_zero_witness :
    run_powershell ⟨some (["done"], 0)⟩ = true :=
  (run_powershell_true_iff_exit_zero ⟨some (["done"], 0)⟩).mpr ⟨["done"], rfl⟩
